import Mathlib

/- Shallow embedding of acme_tiny.py (bjoe2k4/acme-tiny). Python str and bytes
   values are modelled as Lean String, with bytes as character codes; network
   and filesystem effects are modelled by explicit environment functions and by
   result traces that count the side effects the code performs. -/

namespace AcmeTiny

/-- The whitespace characters removed by the Python str.strip call on the
    self-verification fetch (acme_tiny.py line 122). -/
def isSpaceChar (c : Char) : Bool :=
  c == ' ' || c == '\t' || c == '\n' || c == '\r' || c == '\x0b' || c == '\x0c'

/-- Python str.strip with no argument: remove surrounding whitespace. -/
def pyStrip (s : String) : String :=
  ⟨((s.data.dropWhile isSpaceChar).reverse.dropWhile isSpaceChar).reverse⟩

/-- The character class [A-Za-z0-9_-] kept by the token sanitizer. -/
def tokenChar (c : Char) : Bool :=
  (decide (65 ≤ c.toNat) && decide (c.toNat ≤ 90))
  || (decide (97 ≤ c.toNat) && decide (c.toNat ≤ 122))
  || (decide (48 ≤ c.toNat) && decide (c.toNat ≤ 57))
  || c == '_' || c == '-'

/-- Line 112: re.sub of every character outside [A-Za-z0-9_-] by an
    underscore. -/
def sanitizeToken (s : String) : String :=
  ⟨s.data.map (fun c => if tokenChar c then c else '_')⟩

/-- Python str.split with a fixed nonempty separator, by fuel recursion; the
    fuel is always instantiated with the length of the scanned list, which is
    enough for the scan to finish. -/
def splitSepAux (sep : List Char) : Nat → List Char → List Char → List (List Char)
  | 0, acc, l => [acc.reverse ++ l]
  | _ + 1, acc, [] => [acc.reverse]
  | n + 1, acc, c :: cs =>
    if sep.isPrefixOf (c :: cs) then
      acc.reverse :: splitSepAux sep n [] ((c :: cs).drop sep.length)
    else
      splitSepAux sep n (c :: acc) cs

/-- Python str.split(sep). -/
def pySplit (sep s : String) : List String :=
  (splitSepAux sep.data s.data.length [] s.data).map (fun l => (⟨l⟩ : String))

/-- Lines 82-84: split the captured SAN line on ", ", keep the entries that
    start with "DNS:" and drop that four character marker. -/
def dnsNames (sanLine : String) : List String :=
  ((pySplit ", " sanLine).filter (fun san => "DNS:".data.isPrefixOf san.data)).map
    (fun san => ⟨san.data.drop 4⟩)

/-- Lines 76-84 of get_crt: the domain set built from the CSR text dump. The
    two re.search results are taken as inputs: commonName is the CN capture
    when the Subject pattern matched, sanLine the captured alternative name
    list line when the SAN pattern matched. -/
def extractDomains (commonName : Option String) (sanLine : Option String) : Finset String :=
  let d0 : Finset String := ∅
  let d1 : Finset String :=
    match commonName with
    | some cn => insert cn d0
    | none => d0
  match sanLine with
  | some l => (dnsNames l).foldl (fun acc nm => insert nm acc) d1
  | none => d1

/-- os.path.join restricted to the two-argument calls of the source. -/
def pathJoin (a b : String) : String :=
  if "/".data.isPrefixOf b.data then b
  else if a.data = [] then a ++ b
  else if a.data.getLast? = some '/' then a ++ b
  else a ++ "/" ++ b

/-- Line 119: the URL the authority will probe for a published token. -/
def wellknownUrl (domain token : String) : String :=
  "http://" ++ domain ++ "/.well-known/acme-challenge/" ++ token

/-- Standard base64 alphabet (base64.b64encode). -/
def b64AlphaStd : List Char :=
  "ABCDEFGHIJKLMNOPQRSTUVWXYZabcdefghijklmnopqrstuvwxyz0123456789+/".data

/-- URL-safe base64 alphabet (base64.urlsafe_b64encode). -/
def b64AlphaUrl : List Char :=
  "ABCDEFGHIJKLMNOPQRSTUVWXYZabcdefghijklmnopqrstuvwxyz0123456789-_".data

/-- base64 encoding of a byte list with terminal padding, over the given
    64 character alphabet. -/
def b64EncodeCore (alpha : List Char) : List Nat → List Char
  | [] => []
  | [a] =>
    [alpha.getD (a / 4) '?', alpha.getD ((a % 4) * 16) '?', '=', '=']
  | [a, b] =>
    [alpha.getD (a / 4) '?', alpha.getD ((a % 4) * 16 + b / 16) '?',
     alpha.getD ((b % 16) * 4) '?', '=']
  | a :: b :: c :: rest =>
    alpha.getD (a / 4) '?' :: alpha.getD ((a % 4) * 16 + b / 16) '?' ::
    alpha.getD ((b % 16) * 4 + c / 64) '?' :: alpha.getD (c % 64) '?' ::
    b64EncodeCore alpha rest

/-- Bytes of a string; the source only feeds ASCII data to the encoders. -/
def strBytes (s : String) : List Nat := s.data.map Char.toNat

/-- base64.b64encode applied to a byte string (line 167). -/
def b64encodeStd (s : String) : String := ⟨b64EncodeCore b64AlphaStd (strBytes s)⟩

/-- The _b64 helper (lines 18-19): urlsafe base64 with "=" removed. -/
def b64url (bytes : List Nat) : String :=
  ⟨(b64EncodeCore b64AlphaUrl bytes).filter (fun c => c != '=')⟩

def b64urlOfString (s : String) : String := b64url (strBytes s)

/-- The jwk dict of the session header (lines 40-45). -/
structure Jwk where
  e : String
  kty : String
  n : String
deriving DecidableEq

/-- The session header dict: alg plus jwk. It carries no nonce; the nonce
    only ever lives in the deep copy made per request. -/
structure AcmeHeader where
  alg : String
  jwk : Jwk
deriving DecidableEq

/-- json.dumps of the jwk dict in its insertion order (e, kty, n), with the
    default separators. -/
def jsonJwk (j : Jwk) : String :=
  "\x7b\"e\": \"" ++ j.e ++ "\", \"kty\": \"" ++ j.kty ++ "\", \"n\": \"" ++ j.n ++ "\"\x7d"

/-- json.dumps of the protected dict: the deep copy of the header with the
    nonce key appended (lines 52-54). -/
def jsonProtected (h : AcmeHeader) (nonce : String) : String :=
  "\x7b\"alg\": \"" ++ h.alg ++ "\", \"jwk\": " ++ jsonJwk h.jwk
    ++ ", \"nonce\": \"" ++ nonce ++ "\"\x7d"

/-- The signed JSON envelope of lines 55-58. -/
structure SignedRequest where
  header : AcmeHeader
  protected64 : String
  payload64 : String
  signature : String
deriving DecidableEq

/-- Lines 50-58: envelope construction inside _send_signed_request. The
    payload is taken already JSON-serialized, sign models the openssl dgst
    subprocess, and the nonce is the Replay-Nonce fetched from the directory
    immediately before signing. -/
def buildSigned (header : AcmeHeader) (sign : String → List Nat)
    (payloadJson nonce : String) : SignedRequest :=
  let payload64 := b64urlOfString payloadJson
  let protected64 := b64urlOfString (jsonProtected header nonce)
  { header := header
  , protected64 := protected64
  , payload64 := payload64
  , signature := b64url (sign (protected64 ++ "." ++ payload64)) }

/-- Outcome of the urlopen call in _send_signed_request: a 2xx response, an
    HTTPError (which still carries code, body and headers), or a URLError
    (which carries only a reason). -/
inductive HttpResult where
  | success (code : Nat) (body : String) (hs : List (String × String))
  | httpError (code : Nat) (body : String) (hs : List (String × String))
  | urlError (reason : String)
deriving DecidableEq

/-- What the headers variable holds after the try/except of lines 59-63:
    a real header message, or the string form of a URLError reason. -/
inductive HdrInfo where
  | fromInfo (hs : List (String × String))
  | reasonText (s : String)
deriving DecidableEq

/-- The code variable of lines 61-63: the status code, or None for a
    URLError without a code attribute. -/
def respCode : HttpResult → Option Nat
  | .success c _ _ => some c
  | .httpError c _ _ => some c
  | .urlError _ => none

/-- The result variable of lines 61-63: the body read from the response or
    from the HTTPError, or str of the URLError reason. -/
def respBody : HttpResult → String
  | .success _ b _ => b
  | .httpError _ b _ => b
  | .urlError r => r

/-- The headers variable of lines 61-63. -/
def respHeaders : HttpResult → HdrInfo
  | .success _ _ hs => .fromInfo hs
  | .httpError _ _ hs => .fromInfo hs
  | .urlError r => .reasonText r

/-- The ValueError raised on a status code absent from the expected table;
    the format string interpolates exactly the code and the raw body. -/
structure ProtoError where
  code : Option Nat
  body : String
deriving DecidableEq

/-- Lines 59-71: classification of a transport outcome against the expected
    status table return_codes. A listed code returns the body and headers
    together with the optional log message of the table entry; an unlisted
    code (including the None code of a URLError) raises the ValueError
    carrying code and body. -/
def sendClassify (returnCodes : List (Nat × Option String)) (r : HttpResult) :
    Except ProtoError (String × HdrInfo × Option String) :=
  match respCode r with
  | some c =>
    match returnCodes.lookup c with
    | some message => .ok (respBody r, respHeaders r, message)
    | none => .error ⟨some c, respBody r⟩
  | none => .error ⟨none, respBody r⟩

/-- The parsed challenge resource returned by a status poll (line 137):
    its status field and its full textual representation, the latter being
    what the failure message interpolates. -/
structure Chal where
  status : String
  full : String
deriving DecidableEq

/-- Outcome of one urlopen on the challenge URI while polling: the parsed
    resource, or the IOError branch of lines 138-140 with its code and
    parsed body. -/
inductive PollFetch where
  | ok (c : Chal)
  | ioError (code : Nat) (body : String)
deriving DecidableEq

/-- Terminal outcome of one domain of the verification loop of get_crt. -/
inductive DomainOutcome where
  | verified
  | authzFailed (code : Option Nat) (body : String)
  | noHttpChallenge
  | verifyFailed (msg : String)
  | notifyFailed (code : Option Nat) (body : String)
  | pollIOFailed (msg : String)
  | challengeFailed (msg : String)
  | stillPolling
deriving DecidableEq

/-- Observable effects of the polling loop: its outcome, how many times it
    executed os.remove on the wellknown path, and how many seconds it spent
    in time.sleep calls. -/
structure PollTrace where
  outcome : DomainOutcome
  removals : Nat
  sleepSeconds : Nat
deriving DecidableEq

/-- Lines 134-149: the polling loop, indexed by the poll responses as a
    stream and bounded by fuel (the source loop is unbounded; stillPolling
    records that the fuel ran out with the loop still going). A pending
    status sleeps two seconds and re-polls; a valid status removes the
    published file once and breaks; any other status raises the ValueError
    that interpolates the domain and the full challenge resource. -/
def pollLoop (domain : String) (poll : Nat → PollFetch) : Nat → Nat → PollTrace
  | 0, _ => ⟨.stillPolling, 0, 0⟩
  | fuel + 1, i =>
    match poll i with
    | .ioError code body =>
      ⟨.pollIOFailed ("Error checking challenge: " ++ toString code ++ " " ++ body), 0, 0⟩
    | .ok c =>
      if c.status = "pending" then
        let r := pollLoop domain poll fuel (i + 1)
        ⟨r.outcome, r.removals, r.sleepSeconds + 2⟩
      else if c.status = "valid" then ⟨.verified, 1, 0⟩
      else ⟨.challengeFailed (domain ++ " challenge did not pass: " ++ c.full), 0, 0⟩

/-- One entry of the challenges list of the parsed new-authz body
    (line 111): its type field and its token. -/
structure ChallengeOffer where
  ctype : String
  token : String
deriving DecidableEq

/-- Environment of one domain iteration of the verification loop: the
    classified transport outcomes of its two signed requests, the parsed
    challenge list of the new-authz body, the self-check fetch of the
    wellknown URL (none models the IOError branch), and the poll stream. -/
structure DomainData where
  authzResp : HttpResult
  challenges : List ChallengeOffer
  fetch : String → Option String
  notifyResp : HttpResult
  poll : Nat → PollFetch

/-- Observable effects of one domain iteration: whether the challenge file
    was written, how many times it was removed, whether the notify request
    was sent to the authority, seconds slept, and the outcome. -/
structure DomainTrace where
  published : Bool
  removals : Nat
  notified : Bool
  sleepSeconds : Nat
  outcome : DomainOutcome
deriving DecidableEq

/-- Lines 102-149: one iteration of the per-domain loop of get_crt.
    new-authz expects only 201; the http-01 challenge is selected by filter
    and first index (empty filter is the IndexError); the token is
    sanitized, the key authorization written at acme_dir joined with the
    token; the self check fetches the wellknown URL, strips the content and
    compares it with the key authorization, removing the file and raising
    on any failure; the notify request expects only 202; then the loop of
    pollLoop runs. -/
def verifyDomain (acmeDir thumbprint domain : String) (d : DomainData) (fuel : Nat) :
    DomainTrace :=
  match sendClassify [(201, none)] d.authzResp with
  | .error e => ⟨false, 0, false, 0, .authzFailed e.code e.body⟩
  | .ok _ =>
    match d.challenges.filter (fun c => c.ctype == "http-01") with
    | [] => ⟨false, 0, false, 0, .noHttpChallenge⟩
    | ch :: _ =>
      match d.fetch (wellknownUrl domain (sanitizeToken ch.token)) with
      | some respData =>
        if pyStrip respData = sanitizeToken ch.token ++ "." ++ thumbprint then
          match sendClassify [(202, none)] d.notifyResp with
          | .error e => ⟨true, 0, true, 0, .notifyFailed e.code e.body⟩
          | .ok _ =>
            let p := pollLoop domain d.poll fuel 0
            ⟨true, p.removals, true, p.sleepSeconds, p.outcome⟩
        else
          ⟨true, 1, false, 0,
            .verifyFailed ("Wrote file to " ++ pathJoin acmeDir (sanitizeToken ch.token)
              ++ ", but couldn\x27t download "
              ++ wellknownUrl domain (sanitizeToken ch.token))⟩
      | none =>
        ⟨true, 1, false, 0,
          .verifyFailed ("Wrote file to " ++ pathJoin acmeDir (sanitizeToken ch.token)
            ++ ", but couldn\x27t download "
            ++ wellknownUrl domain (sanitizeToken ch.token))⟩

/-- Lowercasing used to model the case-insensitive header name matching of
    the header message get_all. -/
def lowerStr (s : String) : String := ⟨s.data.map Char.toLower⟩

/-- email message get_all: every value of the named header in message
    order, and None when the header is absent. -/
def getAll (hs : List (String × String)) (name : String) : Option (List String) :=
  match (hs.filter (fun p => lowerStr p.1 == lowerStr name)).map (fun p => p.2) with
  | [] => none
  | v :: vs => some (v :: vs)

/-- Line 159: the regex that accepts a Link header value starting (after
    whitespace) with an angle-bracketed URL and later carrying a semicolon
    followed by whitespace and the literal up relation; the capture is the
    URL between the brackets. First the scan for the semicolon part. -/
def findSemiRelUp : List Char → Bool
  | [] => false
  | c :: rest =>
    (c == ';' && "rel=\"up\"".data.isPrefixOf (rest.dropWhile isSpaceChar))
      || findSemiRelUp rest

/-- The capture up to the first closing angle bracket, with the rest of the
    value. -/
def upToGt : List Char → Option (List Char × List Char)
  | [] => none
  | c :: rest =>
    if c = '>' then some ([], rest)
    else (upToGt rest).map (fun p => (c :: p.1, p.2))

/-- Line 159: the whole match; some url exactly when the regex matches. -/
def linkUp (s : String) : Option String :=
  match s.data.dropWhile isSpaceChar with
  | '<' :: rest =>
    match upToGt rest with
    | some (url, tail) => if findSemiRelUp tail then some (⟨url⟩ : String) else none
    | none => none
  | _ => none

/-- Lines 157-162: the loop that appends one fetched certificate per Link
    header value matching the up relation, preserving header order. -/
def collectUps (fetch : String → String) : List String → List String
  | [] => []
  | h :: t =>
    match linkUp h with
    | some u => fetch u :: collectUps fetch t
    | none => collectUps fetch t

/-- textwrap.wrap at width 64 on a string without spaces: chunks of 64
    characters. Fuel recursion, instantiated with the length of the list. -/
def chunkCharsAux : Nat → List Char → List (List Char)
  | 0, _ => []
  | _ + 1, [] => []
  | n + 1, c :: cs => ((c :: cs).take 64) :: chunkCharsAux n ((c :: cs).drop 64)

/-- The wrapped lines of line 167. -/
def chunks64 (s : String) : List String :=
  (chunkCharsAux s.data.length s.data).map (fun l => (⟨l⟩ : String))

/-- The newline join of line 167. -/
def joinLines : List String → String
  | [] => ""
  | [x] => x
  | x :: y :: ys => x ++ "\n" ++ joinLines (y :: ys)

/-- Lines 166-167: one PEM-framed entry of the output. -/
def pemFrame (cert : String) : String :=
  "-----BEGIN CERTIFICATE-----\n" ++ joinLines (chunks64 (b64encodeStd cert))
    ++ "\n-----END CERTIFICATE-----\n"

/-- Lines 156-167: the certificate chain assembly. The leaf is always
    first; with the chain flag the Link headers are iterated, which fails
    with a TypeError when get_all returned None, and with an
    AttributeError when the headers variable holds a URLError reason
    string; the framed entries are joined with the empty separator. -/
def assembleChain (leaf : String) (wantChain : Bool) (headers : HdrInfo)
    (fetch : String → String) : Except String String :=
  if wantChain then
    match headers with
    | .reasonText _ => .error "AttributeError: no attribute get_all"
    | .fromInfo hs =>
      match getAll hs "Link" with
      | none => .error "TypeError: NoneType object is not iterable"
      | some links => .ok (String.join ((leaf :: collectUps fetch links).map pemFrame))
  else .ok (String.join ([leaf].map pemFrame))

/-- Inputs of a whole get_crt run, with the transport outcomes of the
    registration and new-cert signed requests and the per-domain
    environments. -/
structure RunEnv where
  acmeDir : String
  thumbprint : String
  regResp : HttpResult
  domainData : String → DomainData
  certResp : HttpResult
  fetchDer : String → String

/-- Result of a whole run. -/
inductive RunResult where
  | issued (pem : String)
  | regFailed (code : Option Nat) (body : String)
  | domainFailed (o : DomainOutcome)
  | certFailed (code : Option Nat) (body : String)
  | chainFailed (msg : String)
deriving DecidableEq

/-- Lines 101-149: the per-domain loop; none means every domain verified
    (vacuously so for an empty domain set), some o the outcome that aborted
    the run (stillPolling marking a loop that was still running when the
    fuel ran out). -/
def processDomains (env : RunEnv) (fuel : Nat) : List String → Option DomainOutcome
  | [] => none
  | dom :: rest =>
    let t := verifyDomain env.acmeDir env.thumbprint dom (env.domainData dom) fuel
    match t.outcome with
    | .verified => processDomains env fuel rest
    | o => some o

/-- Lines 87-167 of get_crt after account key parsing: registration
    (expected statuses 201 and 409 with their log messages), the per-domain
    verification loop, the new-cert request (expected status 201), and the
    chain assembly on the body and headers it returned. -/
def getCrtFlow (env : RunEnv) (domains : List String) (wantChain : Bool) (fuel : Nat) :
    RunResult :=
  match sendClassify [(201, some "Registered!"), (409, some "Already registered!")]
      env.regResp with
  | .error e => .regFailed e.code e.body
  | .ok _ =>
    match processDomains env fuel domains with
    | some o => .domainFailed o
    | none =>
      match sendClassify [(201, none)] env.certResp with
      | .error e => .certFailed e.code e.body
      | .ok (result, headers, _) =>
        match assembleChain result wantChain headers env.fetchDer with
        | .ok pem => .issued pem
        | .error m => .chainFailed m

/-! Helper lemmas. -/

theorem classify_ok (table : List (Nat × Option String)) (r : HttpResult) (c : Nat)
    (msg : Option String) (h : respCode r = some c) (hl : table.lookup c = some msg) :
    sendClassify table r = .ok (respBody r, respHeaders r, msg) := by
  simp only [sendClassify, h, hl]

theorem classify_err_absent (table : List (Nat × Option String)) (r : HttpResult) (c : Nat)
    (h : respCode r = some c) (hl : table.lookup c = none) :
    sendClassify table r = .error ⟨some c, respBody r⟩ := by
  simp only [sendClassify, h, hl]

theorem classify_err_none (table : List (Nat × Option String)) (r : HttpResult)
    (h : respCode r = none) :
    sendClassify table r = .error ⟨none, respBody r⟩ := by
  simp only [sendClassify, h]

/-! Claim theorems. -/

/-- C7: token sanitization replaces, at each position, every character outside
    [A-Za-z0-9_-] with an underscore, leaves all other characters unchanged,
    and is idempotent on every input string. -/
theorem C7_theorem (s : String) :
    (sanitizeToken s).length = s.length
    ∧ (∀ i : Nat, (sanitizeToken s).data.get? i
        = (s.data.get? i).map (fun c => if tokenChar c then c else '_'))
    ∧ sanitizeToken (sanitizeToken s) = sanitizeToken s := by
  refine ⟨?_, fun i => by simp [sanitizeToken], ?_⟩
  · show (sanitizeToken s).data.length = s.data.length
    simp [sanitizeToken]
  have hff : ((fun c => if tokenChar c then c else '_')
        ∘ (fun c => if tokenChar c then c else '_'))
      = (fun c => if tokenChar c then c else '_') := by
    funext c
    by_cases h : tokenChar c
    · simp [Function.comp, h]
    · simp [Function.comp, h]
  simp only [sanitizeToken]
  rw [List.map_map, hff]

/-- C3: the signed-request send classifies strictly by numeric status code
    against the expected-status table: a listed code returns the body and
    headers together with the optional log message of the table entry, any
    unlisted code (including the absent code of a URLError) yields the
    protocol error carrying exactly that code and the raw body, and code,
    body and headers are extracted this way even from a failed non-2xx HTTP
    response. -/
theorem C3_theorem (table : List (Nat × Option String)) (r : HttpResult) :
    (∀ (c : Nat) (msg : Option String), respCode r = some c → table.lookup c = some msg →
      sendClassify table r = .ok (respBody r, respHeaders r, msg))
    ∧ (∀ c : Nat, respCode r = some c → table.lookup c = none →
      sendClassify table r = .error ⟨some c, respBody r⟩)
    ∧ (respCode r = none → sendClassify table r = .error ⟨none, respBody r⟩)
    ∧ (∀ (c : Nat) (b : String) (hs : List (String × String)), r = .httpError c b hs →
      respCode r = some c ∧ respBody r = b ∧ respHeaders r = .fromInfo hs) := by
  refine ⟨fun c msg h hl => classify_ok table r c msg h hl,
          fun c h hl => classify_err_absent table r c h hl,
          fun h => classify_err_none table r h,
          fun c b hs h => by subst h; exact ⟨rfl, rfl, rfl⟩⟩

def regTable : List (Nat × Option String) :=
  [(201, some "Registered!"), (409, some "Already registered!")]

def resp409 : HttpResult := .httpError 409 "already registered body" [("Boulder", "x")]

def resp500 : HttpResult := .httpError 500 "server error body" []

theorem C3_witness :
    sendClassify regTable resp409
        = .ok (respBody resp409, respHeaders resp409, some "Already registered!")
    ∧ sendClassify regTable resp500 = .error ⟨some 500, respBody resp500⟩ :=
  ⟨(C3_theorem regTable resp409).1 409 (some "Already registered!") rfl rfl,
   (C3_theorem regTable resp500).2.1 500 rfl rfl⟩

/-- C6: each envelope build places the fresh nonce only in the protected
    copy of the session header: the envelope's unprotected header equals the
    session header unchanged, two builds of identical payloads share the
    payload field, the protected field encodes exactly the header plus the
    nonce, and the signature is over the protected and payload strings
    joined by a dot. -/
theorem C6_theorem (h : AcmeHeader) (sign : String → List Nat) (payloadJson n1 n2 : String) :
    (buildSigned h sign payloadJson n1).header = h
    ∧ (buildSigned h sign payloadJson n2).header = h
    ∧ (buildSigned h sign payloadJson n1).payload64 = (buildSigned h sign payloadJson n2).payload64
    ∧ (buildSigned h sign payloadJson n1).protected64 = b64urlOfString (jsonProtected h n1)
    ∧ (buildSigned h sign payloadJson n1).signature
        = b64url (sign ((buildSigned h sign payloadJson n1).protected64 ++ "."
            ++ (buildSigned h sign payloadJson n1).payload64)) :=
  ⟨rfl, rfl, rfl, rfl, rfl⟩

theorem mem_foldl_insert (l : List String) :
    ∀ (init : Finset String) (d : String),
      d ∈ l.foldl (fun acc nm => insert nm acc) init ↔ d ∈ init ∨ d ∈ l := by
  induction l with
  | nil => intro init d; simp
  | cons c cs ih =>
    intro init d
    simp only [List.foldl_cons, ih, Finset.mem_insert, List.mem_cons]
    tauto

/-- C8: the domain extraction returns the set union of the common name
    capture (when the Subject pattern matched) and of every DNS entry of the
    SAN line, with set semantics; on the CSR with common name example.com and
    the SAN line listing example.com and www.example.com it returns exactly
    that two-element set. -/
theorem C8_theorem :
    (∀ (cn san : Option String) (d : String),
      d ∈ extractDomains cn san
        ↔ (cn = some d ∨ ∃ l, san = some l ∧ d ∈ dnsNames l))
    ∧ extractDomains (some "example.com") (some "DNS:example.com, DNS:www.example.com")
        = ({"example.com", "www.example.com"} : Finset String) := by
  constructor
  · intro cn san d
    cases cn <;> cases san <;>
      simp [extractDomains, mem_foldl_insert, eq_comm]
  · decide

theorem C8_witness :
    "www.example.com" ∈ extractDomains (some "example.com")
      (some "DNS:example.com, DNS:www.example.com") :=
  (C8_theorem.1 (some "example.com") (some "DNS:example.com, DNS:www.example.com")
      "www.example.com").mpr
    (Or.inr ⟨"DNS:example.com, DNS:www.example.com", rfl, by decide⟩)

theorem pollLoop_pending_prefix (domain : String) (poll : Nat → PollFetch) :
    ∀ (k fuel i : Nat),
      (∀ j, j < k → ∃ c, poll (i + j) = .ok c ∧ c.status = "pending") →
      pollLoop domain poll (k + fuel) i
        = ⟨(pollLoop domain poll fuel (i + k)).outcome,
           (pollLoop domain poll fuel (i + k)).removals,
           (pollLoop domain poll fuel (i + k)).sleepSeconds + 2 * k⟩ := by
  intro k
  induction k with
  | zero => intro fuel i _; simp
  | succ k ih =>
    intro fuel i hp
    obtain ⟨c, hc, hs⟩ := hp 0 (Nat.succ_pos k)
    rw [Nat.add_zero] at hc
    have hstep : k + 1 + fuel = (k + fuel) + 1 := by omega
    rw [hstep]
    have hp1 : ∀ j, j < k → ∃ c, poll (i + 1 + j) = .ok c ∧ c.status = "pending" := by
      intro j hj
      have := hp (j + 1) (by omega)
      rwa [show i + (j + 1) = i + 1 + j by omega] at this
    have hrec := ih fuel (i + 1) hp1
    simp only [pollLoop, hc, hs, if_pos]
    rw [hrec]
    have hidx : i + 1 + k = i + (k + 1) := by omega
    rw [hidx]
    simp only [PollTrace.mk.injEq]
    exact ⟨trivial, trivial, by omega⟩

theorem pollLoop_step_valid (domain : String) (poll : Nat → PollFetch) (m i : Nat) (c : Chal)
    (hc : poll i = .ok c) (hv : c.status = "valid") :
    pollLoop domain poll (m + 1) i = ⟨.verified, 1, 0⟩ := by
  simp [pollLoop, hc, hv]

theorem pollLoop_step_other (domain : String) (poll : Nat → PollFetch) (m i : Nat) (c : Chal)
    (hc : poll i = .ok c) (h1 : c.status ≠ "pending") (h2 : c.status ≠ "valid") :
    pollLoop domain poll (m + 1) i
      = ⟨.challengeFailed (domain ++ " challenge did not pass: " ++ c.full), 0, 0⟩ := by
  simp only [pollLoop, hc]
  rw [if_neg h1, if_neg h2]

theorem pollLoop_first_valid (domain : String) (poll : Nat → PollFetch) (k fuel : Nat)
    (c : Chal)
    (hp : ∀ j, j < k → ∃ cc, poll j = .ok cc ∧ cc.status = "pending")
    (hc : poll k = .ok c) (hv : c.status = "valid") (hf : k < fuel) :
    pollLoop domain poll fuel 0 = ⟨.verified, 1, 2 * k⟩ := by
  have hsplit : fuel = k + (fuel - k - 1 + 1) := by omega
  rw [hsplit, pollLoop_pending_prefix domain poll k (fuel - k - 1 + 1) 0
    (by simpa using hp)]
  rw [Nat.zero_add, pollLoop_step_valid domain poll (fuel - k - 1) k c hc hv]
  simp

theorem pollLoop_all_pending (domain : String) (poll : Nat → PollFetch)
    (hp : ∀ i, ∃ c, poll i = .ok c ∧ c.status = "pending") (n : Nat) :
    pollLoop domain poll n 0 = ⟨.stillPolling, 0, 2 * n⟩ := by
  have h := pollLoop_pending_prefix domain poll n 0 0 (fun j _ => by simpa using hp j)
  simp only [Nat.add_zero, Nat.zero_add] at h
  rw [show pollLoop domain poll 0 n = (⟨.stillPolling, 0, 0⟩ : PollTrace) from rfl] at h
  simpa using h

theorem pollLoop_verified_inv (domain : String) (poll : Nat → PollFetch) :
    ∀ (fuel i : Nat), (pollLoop domain poll fuel i).outcome = .verified →
      ∃ k, i ≤ k ∧ k < i + fuel
        ∧ (∃ c, poll k = .ok c ∧ c.status = "valid")
        ∧ ∀ j, i ≤ j → j < k → ∃ c, poll j = .ok c ∧ c.status = "pending" := by
  intro fuel
  induction fuel with
  | zero => intro i h; simp [pollLoop] at h
  | succ m ih =>
    intro i h
    rw [pollLoop] at h
    cases hpi : poll i with
    | ioError code body => rw [hpi] at h; simp at h
    | ok c =>
      rw [hpi] at h
      by_cases hst : c.status = "pending"
      · simp [hst] at h
        obtain ⟨k, hk1, hk2, hkv, hkp⟩ := ih (i + 1) h
        refine ⟨k, by omega, by omega, hkv, fun j hj1 hj2 => ?_⟩
        rcases Nat.eq_or_lt_of_le hj1 with hij | hlt
        · exact hij ▸ ⟨c, hpi, hst⟩
        · exact hkp j hlt hj2
      · by_cases hv : c.status = "valid"
        · exact ⟨i, Nat.le_refl i, by omega, ⟨c, hpi, hv⟩,
            fun j hj1 hj2 => absurd hj2 (by omega)⟩
        · simp [hst, hv] at h

/-- C5: while every observed status is pending the loop sleeps two seconds
    per poll and re-polls without bound (after any fuel n it is still
    polling, having slept 2n seconds and removed nothing); it terminates
    successfully exactly when valid is first observed, at which point the
    published file is removed exactly once. -/
theorem C5_theorem (domain : String) :
    (∀ (poll : Nat → PollFetch) (k fuel : Nat) (c : Chal),
      (∀ j, j < k → ∃ cc, poll j = .ok cc ∧ cc.status = "pending") →
      poll k = .ok c → c.status = "valid" → k < fuel →
      pollLoop domain poll fuel 0 = ⟨.verified, 1, 2 * k⟩)
    ∧ (∀ (poll : Nat → PollFetch) (fuel i : Nat),
      (pollLoop domain poll fuel i).outcome = .verified →
      ∃ k, i ≤ k ∧ k < i + fuel ∧ (∃ c, poll k = .ok c ∧ c.status = "valid")
        ∧ ∀ j, i ≤ j → j < k → ∃ c, poll j = .ok c ∧ c.status = "pending")
    ∧ (∀ (poll : Nat → PollFetch) (n : Nat),
      (∀ i, ∃ c, poll i = .ok c ∧ c.status = "pending") →
      pollLoop domain poll n 0 = ⟨.stillPolling, 0, 2 * n⟩) :=
  ⟨fun poll k fuel c hp hc hv hf => pollLoop_first_valid domain poll k fuel c hp hc hv hf,
   fun poll fuel i h => pollLoop_verified_inv domain poll fuel i h,
   fun poll n hp => pollLoop_all_pending domain poll hp n⟩

def pollPV : Nat → PollFetch := fun i =>
  if i < 2 then .ok ⟨"pending", "status pending"⟩ else .ok ⟨"valid", "status valid"⟩

def pollPP : Nat → PollFetch := fun _ => .ok ⟨"pending", "status pending"⟩

theorem C5_witness :
    pollLoop "example.com" pollPV 3 0 = ⟨.verified, 1, 2 * 2⟩
    ∧ pollLoop "example.com" pollPP 5 0 = ⟨.stillPolling, 0, 2 * 5⟩ :=
  ⟨( C5_theorem "example.com").1 pollPV 2 3 ⟨"valid", "status valid"⟩
      (fun j hj => ⟨⟨"pending", "status pending"⟩, by simp [pollPV, hj], rfl⟩)
      (by simp [pollPV]) rfl (by omega),
   ( C5_theorem "example.com").2.2 pollPP 5
      (fun i => ⟨⟨"pending", "status pending"⟩, rfl, rfl⟩)⟩

/-- C1 as amended: when, after a successful self check and notify, the
    polling observes pending k times and then a terminal status that is
    neither pending nor valid, the domain terminates with the error carrying
    the full challenge resource body, but the published challenge file is
    NOT removed on this path: the trace records the file as published with
    zero removals. -/
theorem C1_theorem (acmeDir tp domain : String) (d : DomainData) (fuel k : Nat)
    (ch : ChallengeOffer) (rest : List ChallengeOffer) (s : String) (c : Chal)
    (hauthz : respCode d.authzResp = some 201)
    (hch : d.challenges.filter (fun cc => cc.ctype == "http-01") = ch :: rest)
    (hfetch : d.fetch (wellknownUrl domain (sanitizeToken ch.token)) = some s)
    (hstrip : pyStrip s = sanitizeToken ch.token ++ "." ++ tp)
    (hnotify : respCode d.notifyResp = some 202)
    (hpend : ∀ i, i < k → ∃ cc, d.poll i = .ok cc ∧ cc.status = "pending")
    (hc : d.poll k = .ok c) (hcp : c.status ≠ "pending") (hcv : c.status ≠ "valid")
    (hfuel : k < fuel) :
    verifyDomain acmeDir tp domain d fuel
      = ⟨true, 0, true, 2 * k,
         .challengeFailed (domain ++ " challenge did not pass: " ++ c.full)⟩ := by
  have hcls1 : sendClassify [(201, none)] d.authzResp
      = .ok (respBody d.authzResp, respHeaders d.authzResp, none) :=
    classify_ok _ _ 201 none hauthz rfl
  have hcls2 : sendClassify [(202, none)] d.notifyResp
      = .ok (respBody d.notifyResp, respHeaders d.notifyResp, none) :=
    classify_ok _ _ 202 none hnotify rfl
  have hpoll : pollLoop domain d.poll fuel 0
      = ⟨.challengeFailed (domain ++ " challenge did not pass: " ++ c.full), 0, 2 * k⟩ := by
    have hsplit : fuel = k + (fuel - k - 1 + 1) := by omega
    rw [hsplit, pollLoop_pending_prefix domain d.poll k (fuel - k - 1 + 1) 0
      (by simpa using hpend)]
    rw [Nat.zero_add, pollLoop_step_other domain d.poll (fuel - k - 1) k c hc hcp hcv]
    simp
  simp [verifyDomain, hcls1, hch, hfetch, hstrip, hcls2, hpoll]

def chalInvalid : Chal := ⟨"invalid", "status invalid detail"⟩

def dInvalid : DomainData :=
  { authzResp := .success 201 "authz body" []
  , challenges := [⟨"http-01", "tok"⟩]
  , fetch := fun _ => some "tok.T"
  , notifyResp := .success 202 "" []
  , poll := fun _ => .ok chalInvalid }

theorem C1_counterexample :
    verifyDomain "acme" "T" "example.com" dInvalid 1
      = ⟨true, 0, true, 0,
         .challengeFailed "example.com challenge did not pass: status invalid detail"⟩
    ∧ (verifyDomain "acme" "T" "example.com" dInvalid 1).removals ≠ 1 := by
  exact ⟨rfl, by decide⟩

theorem C1_witness :
    verifyDomain "acme" "T" "example.com" dInvalid 2
      = ⟨true, 0, true, 2 * 0,
         .challengeFailed ("example.com" ++ " challenge did not pass: " ++ chalInvalid.full)⟩ :=
  C1_theorem "acme" "T" "example.com" dInvalid 2 0 ⟨"http-01", "tok"⟩ [] "tok.T" chalInvalid
    rfl rfl rfl (by decide) rfl
    (fun i hi => absurd hi (by omega)) rfl (by decide) (by decide) (by omega)

/-- C4: for a domain whose new-authz succeeded and offered an http-01
    challenge, the authority is notified exactly when the self-verification
    fetch of the wellknown URL returned content whose stripped form equals
    the key authorization; on any read failure or mismatch the published
    file is removed once and the domain fails with the descriptive error,
    with the authority never notified. -/
theorem C4_theorem (acmeDir tp domain : String) (d : DomainData) (fuel : Nat)
    (ch : ChallengeOffer) (rest : List ChallengeOffer)
    (hauthz : respCode d.authzResp = some 201)
    (hch : d.challenges.filter (fun cc => cc.ctype == "http-01") = ch :: rest) :
    ((verifyDomain acmeDir tp domain d fuel).notified = true
      ↔ ∃ s, d.fetch (wellknownUrl domain (sanitizeToken ch.token)) = some s
           ∧ pyStrip s = sanitizeToken ch.token ++ "." ++ tp)
    ∧ ((verifyDomain acmeDir tp domain d fuel).notified = false →
        (verifyDomain acmeDir tp domain d fuel).published = true
        ∧ (verifyDomain acmeDir tp domain d fuel).removals = 1
        ∧ (verifyDomain acmeDir tp domain d fuel).outcome
            = .verifyFailed ("Wrote file to " ++ pathJoin acmeDir (sanitizeToken ch.token)
                ++ ", but couldn\x27t download "
                ++ wellknownUrl domain (sanitizeToken ch.token))) := by
  have hcls1 : sendClassify [(201, none)] d.authzResp
      = .ok (respBody d.authzResp, respHeaders d.authzResp, none) :=
    classify_ok _ _ 201 none hauthz rfl
  rcases hfe : d.fetch (wellknownUrl domain (sanitizeToken ch.token)) with _ | s
  · simp [verifyDomain, hcls1, hch, hfe]
  · by_cases hstr : pyStrip s = sanitizeToken ch.token ++ "." ++ tp
    · rcases hcl : sendClassify [(202, none)] d.notifyResp with e | v
      · simp [verifyDomain, hcls1, hch, hfe, hstr, hcl]
      · simp [verifyDomain, hcls1, hch, hfe, hstr, hcl]
    · simp [verifyDomain, hcls1, hch, hfe, hstr]

def dGood : DomainData :=
  { authzResp := .success 201 "authz body" []
  , challenges := [⟨"http-01", "tok"⟩]
  , fetch := fun _ => some "tok.T "
  , notifyResp := .success 202 "" []
  , poll := fun _ => .ok ⟨"valid", "status valid"⟩ }

theorem C4_witness :
    (verifyDomain "acme" "T" "example.com" dGood 1).notified = true :=
  ( C4_theorem "acme" "T" "example.com" dGood 1 ⟨"http-01", "tok"⟩ [] rfl rfl).1.mpr
    ⟨"tok.T ", rfl, by decide⟩

theorem join_singleton (s : String) : String.join [s] = s := rfl

/-- C2 as amended: when the domain set extracted from the CSR is empty, the
    verification loop runs zero iterations and the run proceeds directly to
    the certificate request and issuance; no configuration error is
    raised. -/
theorem C2_theorem (env : RunEnv) (fuel : Nat) (body : String) (hs : List (String × String))
    (hreg : respCode env.regResp = some 201 ∨ respCode env.regResp = some 409)
    (hcert : env.certResp = .success 201 body hs) :
    processDomains env fuel [] = none
    ∧ getCrtFlow env [] false fuel = .issued (pemFrame body) := by
  refine ⟨rfl, ?_⟩
  have hc2 : sendClassify [(201, none)] env.certResp
      = .ok (body, .fromInfo hs, none) := by rw [hcert]; rfl
  rcases hreg with h | h
  · have hc1 := classify_ok [(201, some "Registered!"), (409, some "Already registered!")]
      env.regResp 201 (some "Registered!") h rfl
    simp [getCrtFlow, hc1, hc2, processDomains, assembleChain, join_singleton]
  · have hc1 := classify_ok [(201, some "Registered!"), (409, some "Already registered!")]
      env.regResp 409 (some "Already registered!") h rfl
    simp [getCrtFlow, hc1, hc2, processDomains, assembleChain, join_singleton]

def envEmpty : RunEnv :=
  { acmeDir := "acme"
  , thumbprint := "T"
  , regResp := .success 201 "registration body" []
  , domainData := fun _ => dInvalid
  , certResp := .success 201 "CERT" []
  , fetchDer := fun _ => "INT" }

theorem C2_counterexample :
    getCrtFlow envEmpty [] false 0 = .issued (pemFrame "CERT") := by
  rfl

theorem C2_witness :
    processDomains envEmpty 0 [] = none
    ∧ getCrtFlow envEmpty [] false 0 = .issued (pemFrame "CERT") :=
  C2_theorem envEmpty 0 "CERT" [] (Or.inl rfl) rfl

theorem collectUps_eq (fetch : String → String) :
    ∀ links : List String, collectUps fetch links = (links.filterMap linkUp).map fetch := by
  intro links
  induction links with
  | nil => rfl
  | cons h t ih =>
    cases hl : linkUp h with
    | some u => simp [collectUps, List.filterMap_cons, hl, ih]
    | none => simp [collectUps, List.filterMap_cons, hl, ih]

theorem chunkCharsAux_join : ∀ (n : Nat) (l : List Char), l.length ≤ n →
    (chunkCharsAux n l).flatten = l := by
  intro n
  induction n with
  | zero =>
    intro l hl
    have : l = [] := List.length_eq_zero.mp (by omega)
    subst this
    rfl
  | succ m ih =>
    intro l hl
    cases l with
    | nil => rfl
    | cons c cs =>
      simp only [chunkCharsAux, List.flatten]
      rw [ih ((c :: cs).drop 64) (by simp at hl ⊢; omega)]
      exact List.take_append_drop 64 (c :: cs)

theorem chunkCharsAux_le : ∀ (n : Nat) (l : List Char),
    ∀ p ∈ chunkCharsAux n l, p.length ≤ 64 := by
  intro n
  induction n with
  | zero => intro l p hp; simp [chunkCharsAux] at hp
  | succ m ih =>
    intro l p hp
    cases l with
    | nil => simp [chunkCharsAux] at hp
    | cons c cs =>
      simp only [chunkCharsAux, List.mem_cons] at hp
      rcases hp with hp | hp
      · subst hp; simp
      · exact ih _ p hp

theorem foldl_append_mk (ll : List (List Char)) :
    ∀ a : List Char,
      List.foldl (· ++ ·) (⟨a⟩ : String) (ll.map (fun l => (⟨l⟩ : String)))
        = ⟨a ++ ll.flatten⟩ := by
  induction ll with
  | nil => intro a; simp
  | cons x xs ih =>
    intro a
    simp only [List.map_cons, List.foldl_cons]
    rw [show (⟨a⟩ : String) ++ (⟨x⟩ : String) = (⟨a ++ x⟩ : String) from rfl]
    rw [ih (a ++ x)]
    simp

theorem join_map_mk (ll : List (List Char)) :
    String.join (ll.map (fun l => (⟨l⟩ : String))) = ⟨ll.flatten⟩ := by
  have h := foldl_append_mk ll []
  simpa [String.join] using h

/-- C9: with the chain flag set, the output is the leaf entry first followed
    by one entry per up-relation Link header value in header order, each
    entry base64-encoded, wrapped into lines of at most 64 characters whose
    concatenation restores the encoding, framed by the BEGIN and END
    CERTIFICATE delimiters, and the frames joined with no extra
    separator. -/
theorem C9_theorem (leaf : String) (hs : List (String × String)) (links : List String)
    (fetch : String → String) (h : getAll hs "Link" = some links) :
    assembleChain leaf true (.fromInfo hs) fetch
      = .ok (String.join ((leaf :: (links.filterMap linkUp).map fetch).map pemFrame))
    ∧ (∀ cert : String,
        pemFrame cert
          = "-----BEGIN CERTIFICATE-----\n" ++ joinLines (chunks64 (b64encodeStd cert))
            ++ "\n-----END CERTIFICATE-----\n")
    ∧ (∀ s : String, String.join (chunks64 s) = s ∧ ∀ p ∈ chunks64 s, p.length ≤ 64) := by
  refine ⟨?_, fun cert => rfl, fun s => ⟨?_, ?_⟩⟩
  · simp [assembleChain, h, collectUps_eq]
  · have h1 := chunkCharsAux_join s.data.length s.data (Nat.le_refl _)
    unfold chunks64
    rw [join_map_mk, h1]
  · intro p hp
    unfold chunks64 at hp
    obtain ⟨l, hl, hpl⟩ := List.mem_map.mp hp
    have := chunkCharsAux_le s.data.length s.data l hl
    rw [← hpl]
    simpa using this

def linkHdr : String := "<https://ca.example/int>; rel=\"up\""

def hs9 : List (String × String) := [("Link", linkHdr)]

theorem C9_witness :
    assembleChain "LEAF" true (.fromInfo hs9) (fun _ => "INT")
      = .ok (String.join
          (("LEAF" :: ([linkHdr].filterMap linkUp).map (fun _ => "INT")).map pemFrame)) :=
  ( C9_theorem "LEAF" hs9 [linkHdr] (fun _ => "INT") (by decide)).1

/-- C10: with the chain flag set and no Link header present at all, the
    chain assembly does not produce the single-entry leaf chain of the
    unflagged run: get_all returns None and iterating it aborts with a
    TypeError, after the certificate was already issued. -/
theorem C10_theorem (leaf : String) (hs : List (String × String)) (fetch : String → String)
    (h : getAll hs "Link" = none) :
    assembleChain leaf true (.fromInfo hs) fetch
        = .error "TypeError: NoneType object is not iterable"
    ∧ assembleChain leaf true (.fromInfo hs) fetch
        ≠ assembleChain leaf false (.fromInfo hs) fetch := by
  have h1 : assembleChain leaf true (.fromInfo hs) fetch
      = .error "TypeError: NoneType object is not iterable" := by
    simp [assembleChain, h]
  refine ⟨h1, ?_⟩
  intro hcontra
  rw [h1] at hcontra
  have h2 : assembleChain leaf false (.fromInfo hs) fetch
      = .ok (String.join ([leaf].map pemFrame)) := by
    simp [assembleChain]
  rw [h2] at hcontra
  exact Except.noConfusion hcontra

theorem C10_witness :
    assembleChain "LEAF" true (.fromInfo [("Content-Type", "application/json")])
        (fun _ => "INT")
      = .error "TypeError: NoneType object is not iterable"
    ∧ assembleChain "LEAF" true (.fromInfo [("Content-Type", "application/json")])
        (fun _ => "INT")
      ≠ assembleChain "LEAF" false (.fromInfo [("Content-Type", "application/json")])
        (fun _ => "INT") :=
  C10_theorem "LEAF" [("Content-Type", "application/json")] (fun _ => "INT") (by decide)

end AcmeTiny
